import Mathlib

/-!
Verification development for the micro-rpckit repository.

This file gives a shallow embedding, in Lean 4, of the parts of the
repository that the specification's testable properties talk about:

* the channel mark / package layer (src/session/channel/ServChannel.ts),
* the event channel initialisation (src/session/channel/ServEventChannel.ts),
* the master-side open sequences of the window channel and of the
  event-loader channel (ServWindowChannel.ts, ServEventLoaderChannel.ts),
* the session state machine with its Opening queue
  (src/session/state/OpeningState.ts, ClosedState.ts, OpenedState.ts),
* the service server API dispatch with ACL gating
  (src/service/ServServiceServer.ts),
* the service registry and the refer mechanism
  (src/service/ServServiceManager.ts),
* the asynchronous mutex (src/common/AsyncMutex.ts).

Wire strings (marks, serialized packages) are modelled as lists of
characters, JavaScript strings being sequences of code units.  The
JSON codec is kept abstract: an encoder that may fail models
JSON.stringify throwing, a decoder that may fail models JSON.parse
throwing.  Promise settlement is modelled by an explicit status
(pending, resolved, rejected), following the repository's Deferred
utility: a Deferred is a promise together with resolve and reject
functions and a finished flag, settled at most once.
-/

/-! ## Marks and channel packages (src/session/channel/ServChannel.ts) -/

/-- Wire is the type of JavaScript strings that travel on the medium:
marks and string-form packages. -/
abbrev Wire := List Char

/-- EServTerminal enum from src/terminal/ServTerminal.ts lines 6-10:
NULL = 0, MASTER = 1, SLAVE = 2. -/
inductive EServTerminal where
  | NULL
  | MASTER
  | SLAVE
deriving DecidableEq, Repr

/-- Numeric value of the terminal enum (ServTerminal.ts lines 6-10). -/
def EServTerminal.code : EServTerminal → Nat
  | .NULL => 0
  | .MASTER => 1
  | .SLAVE => 2

/-- Literal "$$" used to build marks in ServChannel.init. -/
def dollars : Wire := '$' :: '$' :: []

/-- Role mark as interpolated in ServChannel.init (ServChannel.ts lines
104-108): the template literal turns the numeric enum value into its
decimal digits between two "$$". -/
def roleMark (t : EServTerminal) : Wire :=
  dollars ++ (Nat.repr t.code).toList ++ dollars

/-- Channel configuration (ServChannel.ts lines 18-23); only the
ignoreSenderType flag is relevant to the mark computation. -/
structure ServChannelConfig where
  ignoreSenderType : Bool := false
deriving DecidableEq, Repr

/-- Mark state computed by ServChannel.init (ServChannel.ts lines
94-118): the send/receive role marks and the final string marks. -/
structure MarkState where
  sendMark : Wire
  recvMark : Wire
  sendStringMark : Wire
  recvStringMark : Wire
deriving DecidableEq, Repr

/-- ServChannel.init (ServChannel.ts lines 94-118).  The session mark is
"$$" ++ sessionId ++ "$$"; unless ignoreSenderType, a master sends with
the MASTER role mark and receives with the SLAVE role mark, and
conversely for a slave; the string marks are sessionMark ++ roleMark. -/
def ServChannel.init (sessionId : Wire) (isMaster : Bool)
    (config : ServChannelConfig) : MarkState :=
  let sessionMark := dollars ++ sessionId ++ dollars
  let marks : Wire × Wire :=
    if config.ignoreSenderType then ([], [])
    else if isMaster then (roleMark .MASTER, roleMark .SLAVE)
    else (roleMark .SLAVE, roleMark .MASTER)
  { sendMark := marks.1
    recvMark := marks.2
    sendStringMark := sessionMark ++ marks.1
    recvStringMark := sessionMark ++ marks.2 }

/-- Channel package (ServChannel.ts lines 35-49): either the object form
carrying a mark and the raw session package, or the string form. -/
inductive ServChannelPackage (α : Type) where
  | obj (mark : Wire) (data : α)
  | str (s : Wire)
deriving DecidableEq, Repr

/-- ServChannel.toObjectPackage (ServChannel.ts lines 207-212). -/
def ServChannel.toObjectPackage (ms : MarkState) (data : α) :
    ServChannelPackage α :=
  .obj ms.sendStringMark data

/-- ServChannel.toStringPackage (ServChannel.ts lines 219-227): JSON
serialization is modelled by an encoder that may fail; on failure the
source catches, reports asynchronously and returns the empty string. -/
def ServChannel.toStringPackage (enc : α → Option Wire) (ms : MarkState)
    (data : α) : Wire :=
  match enc data with
  | some rawData => ms.sendStringMark ++ rawData
  | none => []

/-- ServChannel.frObjectPackage (ServChannel.ts lines 234-240): the
package is accepted only if its mark equals the expected receive mark. -/
def ServChannel.frObjectPackage (ms : MarkState) (mark : Wire) (data : α) :
    Option α :=
  if mark ≠ ms.recvStringMark then none
  else some data

/-- ServChannel.frStringPackage (ServChannel.ts lines 247-254): the
string must start with the receive mark, which is then stripped; an
empty remainder yields undefined, and a JSON.parse throw (decoder
failure) is caught by frChannelPackage, so both are modelled as none. -/
def ServChannel.frStringPackage (dec : Wire → Option α) (ms : MarkState)
    (s : Wire) : Option α :=
  if ¬ ms.recvStringMark.isPrefixOf s then none
  else
    let rest := s.drop ms.recvStringMark.length
    if rest = [] then none else dec rest

/-- ServChannel.frChannelPackage (ServChannel.ts lines 261-275):
dispatch on the package form; exceptions are caught and yield none. -/
def ServChannel.frChannelPackage (dec : Wire → Option α) (ms : MarkState) :
    ServChannelPackage α → Option α
  | .obj mark data => ServChannel.frObjectPackage ms mark data
  | .str s => ServChannel.frStringPackage dec ms s

/-- ServChannel.recvChannelPackage (ServChannel.ts lines 298-313):
returns the session package handed to session.recvPackage, or none when
the package is dropped (not recvable, filtered, or mark mismatch). -/
def ServChannel.recvChannelPackage (dec : Wire → Option α) (ms : MarkState)
    (recvable : Bool) (canRecv : ServChannelPackage α → Bool)
    (pkg : ServChannelPackage α) : Option α :=
  if ¬ recvable then none
  else if ¬ canRecv pkg then none
  else ServChannel.frChannelPackage dec ms pkg

/-! ## ServChannel.send (ServChannel.ts lines 159-190) -/

/-- Form of a delivery attempt made by ServChannel.send. -/
inductive SendAttempt where
  | objForm
  | strForm
deriving DecidableEq, Repr

/-- Outcome of one sendChannelPackage call on the concrete transport:
it returns a boolean, or throws. -/
inductive SendOutcome where
  | ok (b : Bool)
  | thrown
deriving DecidableEq, Repr

/-- Result of ServChannel.send together with the ordered list of
delivery attempts it made. -/
structure SendRun where
  result : Bool
  attempts : List SendAttempt
deriving DecidableEq, Repr

/-- ServChannel.send (ServChannel.ts lines 159-190).  Not sendable
returns false with no attempt.  The object package (always truthy) is
attempted first; if that attempt returns true, send returns true.
Otherwise - whether the attempt threw (caught, reported asynchronously)
or returned false - the string package is built; if serialization
failed (empty string, falsy) no second attempt is made; otherwise the
string form is attempted and its boolean is the result. -/
def ServChannel.send (sendable : Bool) (objOutcome : SendOutcome)
    (strEncoded : Option Wire) (strOutcome : SendOutcome) : SendRun :=
  if ¬ sendable then ⟨false, []⟩
  else
    match objOutcome with
    | .ok true => ⟨true, [.objForm]⟩
    | _ =>
      match strEncoded with
      | none => ⟨false, [.objForm]⟩
      | some _ =>
        match strOutcome with
        | .ok true => ⟨true, [.objForm, .strForm]⟩
        | _ => ⟨false, [.objForm, .strForm]⟩

/-! ## ServEventChannel.init (ServEventChannel.ts lines 334-343) -/

/-- ServEventChannel.init: the event channel must use sender types, so a
caller-provided ignoreSenderType = true is overwritten with false before
the base ServChannel.init runs. -/
def ServEventChannel.init (sessionId : Wire) (isMaster : Bool)
    (config : ServChannelConfig) : MarkState :=
  ServChannel.init sessionId isMaster { config with ignoreSenderType := false }

/-! ## Session state machine
(src/session/state/OpeningState.ts, ClosedState.ts, OpenedState.ts)

One open attempt is modelled as a transition system.  The initial
configuration is the one right after ClosedState.open has installed a
fresh OpeningState and OpeningState.open has armed the timeout, the
cancel hook and the channel open (OpeningState.ts lines 20-106).
External occurrences are events: a sendMessage or recvPackage call, the
open timeout firing, the channel open settling, and an external
session.close call.  The channel send of the Opened state is modelled
by a boolean function chOk on messages (ServChannel.send returns a
boolean and never throws). -/

/-- Settlement status of a Deferred (a promise with resolve and reject,
settled at most once - src/common/Deferred.ts, used by OpeningState). -/
inductive DStat where
  | pending
  | resolved
  | rejected (err : String)
deriving DecidableEq, Repr

/-- Entry of OpeningState.pendingQueue (OpeningState.ts lines 9-13):
sends carry a Deferred that the queue owner must settle, receives do
not (their status field stays pending and is never consulted). -/
structure PendingMsg (μ : Type) where
  isSend : Bool
  status : DStat
  msg : μ
deriving DecidableEq, Repr

/-- Session state tag (state pattern classes of src/session/state). -/
inductive SessState where
  | closed
  | opening
  | opened
deriving DecidableEq, Repr

/-- Configuration of one session open attempt. -/
structure SessionRun (μ : Type) where
  /-- which state object the session currently routes to -/
  sess : SessState
  /-- the done flag of doSafeWork (OpeningState.ts lines 28-40) -/
  done : Bool
  /-- whether this.openingCancel is set (cleared by doSafeWork) -/
  cancelSet : Bool
  /-- the pendingQueue of the installed OpeningState object -/
  queue : List (PendingMsg μ)
  /-- queue entries already processed by flushPendingQueue, with their
  final deferred statuses -/
  flushed : List (PendingMsg μ)
  /-- settlement of the in-flight opening promise -/
  openStat : DStat
  /-- whether channel.close() has been called -/
  channelClosed : Bool
  /-- messages handed to channel.send, in call order -/
  handed : List μ
  /-- packages handed to session.dispatchMessage, in call order -/
  dispatched : List μ
  /-- sends rejected immediately by ClosedState.sendMessage -/
  lateRejects : List μ
deriving DecidableEq, Repr

/-- Configuration right after OpeningState.open has run its synchronous
part: state Opening, nothing done, cancel hook installed, empty queue. -/
def initOpening (μ : Type) : SessionRun μ :=
  { sess := .opening, done := false, cancelSet := true, queue := [],
    flushed := [], openStat := .pending, channelClosed := false,
    handed := [], dispatched := [], lateRejects := [] }

/-- OpenedState.sendMessage (OpenedState.ts lines 23-38) settles the
send promise of a flushed queue entry: resolved when channel.send
returned true, rejected with "Send failed" otherwise. -/
def openedSendStatus (ok : Bool) : DStat :=
  if ok then .resolved else .rejected "Send failed"

/-- OpeningState.flushPendingQueue (OpeningState.ts lines 141-164).
Returns the processed entries with their final statuses, the messages
handed to the channel and the packages re-dispatched, in queue order.
With the session Closed every queued send is rejected with
"Session not opened" and receives are dropped; with the session Opened
sends are replayed through session.sendMessage (hence channel.send) and
receives through session.recvPackage; in the impossible remaining case
the queue is cleared without any effect. -/
def flushPendingQueue (chOk : μ → Bool) (sess : SessState)
    (queue : List (PendingMsg μ)) :
    List (PendingMsg μ) × List μ × List μ :=
  match sess with
  | .closed =>
    (queue.map (fun pm =>
      if pm.isSend then { pm with status := .rejected "Session not opened" }
      else pm), [], [])
  | .opened =>
    (queue.map (fun pm =>
      if pm.isSend then { pm with status := openedSendStatus (chOk pm.msg) }
      else pm),
     (queue.filter (·.isSend)).map (·.msg),
     (queue.filter (fun pm => !pm.isSend)).map (·.msg))
  | .opening => (queue, [], [])

/-- External events acting on one open attempt. -/
inductive SessEvent (μ : Type) where
  | send (m : μ)
  | recv (m : μ)
  | timeoutFires
  | openOk
  | openFail
  | closeCalled
deriving DecidableEq, Repr

/-- One step of the session machine, following the state classes:

* send: OpeningState.sendMessage queues (lines 121-132);
  OpenedState.sendMessage hands to the channel; ClosedState.sendMessage
  rejects immediately.
* recv: OpeningState.recvPackage queues (lines 134-139);
  OpenedState.recvPackage dispatches; ClosedState.recvPackage drops.
* timeoutFires (OpeningState.ts lines 43-53): under doSafeWork, rejects
  the opening promise with "timeout", sets ClosedState, closes the
  channel - and does not touch the pending queue.
* openOk (lines 64-70): under doSafeWork, sets OpenedState and flushes
  the queue.
* openFail (lines 71-77): under doSafeWork, sets ClosedState; the
  opening promise is rejected with the channel error.
* closeCalled: OpeningState.close (lines 108-119) runs the cancel hook
  if set (doSafeWork: reject "cancel", ClosedState, channel.close),
  otherwise closes the channel and sets ClosedState, then flushes the
  queue; OpenedState.close closes the channel and sets ClosedState;
  ClosedState.close is a no-op. -/
def sessStep (chOk : μ → Bool) (s : SessionRun μ) :
    SessEvent μ → SessionRun μ
  | .send m =>
    match s.sess with
    | .opening => { s with queue := s.queue ++ [⟨true, .pending, m⟩] }
    | .opened => { s with handed := s.handed ++ [m] }
    | .closed => { s with lateRejects := s.lateRejects ++ [m] }
  | .recv m =>
    match s.sess with
    | .opening => { s with queue := s.queue ++ [⟨false, .pending, m⟩] }
    | .opened => { s with dispatched := s.dispatched ++ [m] }
    | .closed => s
  | .timeoutFires =>
    if s.sess = .opening ∧ ¬ s.done then
      { s with done := true, cancelSet := false,
               openStat := .rejected "timeout", sess := .closed,
               channelClosed := true }
    else s
  | .openOk =>
    if s.sess = .opening ∧ ¬ s.done then
      let fl := flushPendingQueue chOk .opened s.queue
      { s with done := true, cancelSet := false, sess := .opened,
               openStat := .resolved, queue := [],
               flushed := s.flushed ++ fl.1,
               handed := s.handed ++ fl.2.1,
               dispatched := s.dispatched ++ fl.2.2 }
    else s
  | .openFail =>
    if s.sess = .opening ∧ ¬ s.done then
      { s with done := true, cancelSet := false,
               openStat := .rejected "open failed", sess := .closed }
    else s
  | .closeCalled =>
    match s.sess with
    | .opening =>
      let s1 :=
        if s.cancelSet then
          if ¬ s.done then
            { s with done := true, cancelSet := false,
                     openStat := .rejected "cancel", sess := .closed,
                     channelClosed := true }
          else { s with cancelSet := false }
        else { s with channelClosed := true, sess := .closed }
      let fl := flushPendingQueue chOk s1.sess s1.queue
      { s1 with queue := [],
                flushed := s1.flushed ++ fl.1,
                handed := s1.handed ++ fl.2.1,
                dispatched := s1.dispatched ++ fl.2.2 }
    | .opened =>
      { s with channelClosed := true, sess := .closed }
    | .closed => s

/-- Run of one open attempt over a list of events. -/
def sessRun (chOk : μ → Bool) (evts : List (SessEvent μ)) : SessionRun μ :=
  evts.foldl (sessStep chOk) (initOpening μ)

/-! ## Lemmas about the session machine -/

/-- Once the session routes to ClosedState, no event of the modelled
open attempt can change the state, the abandoned pending queue or the
opening promise: ClosedState.close and ClosedState.recvPackage are
no-ops, ClosedState.sendMessage rejects a fresh promise, and every
OpeningState path is guarded by the done flag or by the state check. -/
theorem sessStep_closed_frozen (chOk : μ → Bool) (s : SessionRun μ)
    (e : SessEvent μ) (h : s.sess = .closed) :
    (sessStep chOk s e).sess = .closed ∧
    (sessStep chOk s e).queue = s.queue ∧
    (sessStep chOk s e).openStat = s.openStat := by
  cases e <;> simp [sessStep, h]

/-- Iterated version of sessStep_closed_frozen. -/
theorem sessFold_closed_frozen (chOk : μ → Bool) (tail : List (SessEvent μ))
    (s : SessionRun μ) (h : s.sess = .closed) :
    (tail.foldl (sessStep chOk) s).sess = .closed ∧
    (tail.foldl (sessStep chOk) s).queue = s.queue ∧
    (tail.foldl (sessStep chOk) s).openStat = s.openStat := by
  induction tail generalizing s with
  | nil => exact ⟨h, rfl, rfl⟩
  | cons e tail ih =>
    have hs := sessStep_closed_frozen chOk s e h
    have := ih (sessStep chOk s e) hs.1
    exact ⟨this.1, this.2.1.trans hs.2.1, this.2.2.trans hs.2.2⟩

/-- Events that merely feed the session while it is Opening. -/
def SessEvent.isIngress : SessEvent μ → Bool
  | .send _ => true
  | .recv _ => true
  | _ => false

/-- Queue entry created by an ingress event (OpeningState.sendMessage
and OpeningState.recvPackage). -/
def ingressPending : SessEvent μ → Option (PendingMsg μ)
  | .send m => some ⟨true, .pending, m⟩
  | .recv m => some ⟨false, .pending, m⟩
  | _ => none

/-- Message of a send event. -/
def sendMsgOf : SessEvent μ → Option μ
  | .send m => some m
  | _ => none

/-- Message of a recv event. -/
def recvMsgOf : SessEvent μ → Option μ
  | .recv m => some m
  | _ => none

/-- While the session is Opening, ingress events only append to the
pending queue, in submission order. -/
theorem sessFold_ingress (chOk : μ → Bool) (pre : List (SessEvent μ))
    (s : SessionRun μ) (hall : ∀ e ∈ pre, e.isIngress = true)
    (hs : s.sess = .opening) :
    pre.foldl (sessStep chOk) s
      = { s with queue := s.queue ++ pre.filterMap ingressPending } := by
  induction pre generalizing s with
  | nil => simp
  | cons e pre ih =>
    have he : e.isIngress = true := hall e (by simp)
    have hrest : ∀ e ∈ pre, SessEvent.isIngress e = true :=
      fun x hx => hall x (by simp [hx])
    cases e with
    | send m =>
      rw [List.foldl_cons]
      have hstep : sessStep chOk s (.send m)
          = { s with queue := s.queue ++ [⟨true, .pending, m⟩] } := by
        simp [sessStep, hs]
      rw [hstep, ih _ hrest (by simp [hs])]
      simp [ingressPending]
    | recv m =>
      rw [List.foldl_cons]
      have hstep : sessStep chOk s (.recv m)
          = { s with queue := s.queue ++ [⟨false, .pending, m⟩] } := by
        simp [sessStep, hs]
      rw [hstep, ih _ hrest (by simp [hs])]
      simp [ingressPending]
    | timeoutFires => simp [SessEvent.isIngress] at he
    | openOk => simp [SessEvent.isIngress] at he
    | openFail => simp [SessEvent.isIngress] at he
    | closeCalled => simp [SessEvent.isIngress] at he

/-- The messages of the send entries among the queued ingress events
are the sent messages, in submission order. -/
theorem filterMap_ingress_sends (pre : List (SessEvent μ)) :
    ((pre.filterMap ingressPending).filter (·.isSend)).map (·.msg)
      = pre.filterMap sendMsgOf := by
  induction pre with
  | nil => rfl
  | cons e pre ih => cases e <;>
      simp [ingressPending, sendMsgOf, List.filter_cons, ih]

/-- The messages of the receive entries among the queued ingress events
are the received packages, in submission order. -/
theorem filterMap_ingress_recvs (pre : List (SessEvent μ)) :
    ((pre.filterMap ingressPending).filter (fun pm => !pm.isSend)).map (·.msg)
      = pre.filterMap recvMsgOf := by
  induction pre with
  | nil => rfl
  | cons e pre ih =>
    cases e <;> simp [ingressPending, recvMsgOf, List.filter_cons, ih]

/-- Flushing through the Opened state settles every send entry:
resolved on channel success, rejected "Send failed" otherwise. -/
theorem flush_opened_settles (chOk : μ → Bool) (q : List (PendingMsg μ)) :
    ∀ pm ∈ (flushPendingQueue chOk .opened q).1,
      pm.isSend = true → pm.status ≠ .pending := by
  intro pm hpm hsend
  simp only [flushPendingQueue, List.mem_map] at hpm
  obtain ⟨pm0, _, rfl⟩ := hpm
  by_cases h0 : pm0.isSend
  · simp only [h0, if_pos] at hsend ⊢
    unfold openedSendStatus
    by_cases hk : chOk pm0.msg <;> simp [hk]
  · simp [h0] at hsend

/-- C1: the claim states that when an open attempt ends by timeout or by
an external close/cancel, the session transitions to Closed, the open
promise is rejected, and every send queued while Opening is rejected
with a session-not-opened error.  The code violates this on the timeout
path: the timeout handler (OpeningState.ts lines 43-53) rejects the
open promise, closes the channel and installs ClosedState but never
flushes the pending queue, so a send queued before the timeout keeps a
pending deferred forever - no later event of the attempt can settle
it, as this theorem shows for every continuation of the run. -/
theorem claim_C1_timeout_strands_queued_sends (μ : Type) (m : μ)
    (chOk : μ → Bool) (tail : List (SessEvent μ)) :
    (sessRun chOk (.send m :: .timeoutFires :: tail)).sess = .closed ∧
    (sessRun chOk (.send m :: .timeoutFires :: tail)).openStat
      = .rejected "timeout" ∧
    (sessRun chOk (.send m :: .timeoutFires :: tail)).queue
      = [⟨true, .pending, m⟩] := by
  have hpre : sessRun chOk [SessEvent.send m, SessEvent.timeoutFires] =
      { sess := .closed, done := true, cancelSet := false,
        queue := [⟨true, .pending, m⟩], flushed := [],
        openStat := .rejected "timeout", channelClosed := true,
        handed := [], dispatched := [], lateRejects := [] } := by
    simp [sessRun, sessStep, initOpening]
  have hsplit : sessRun chOk (.send m :: .timeoutFires :: tail)
      = tail.foldl (sessStep chOk)
          (sessRun chOk [SessEvent.send m, SessEvent.timeoutFires]) := by
    simp [sessRun]
  obtain ⟨h1, h2, h3⟩ := sessFold_closed_frozen chOk tail
    { sess := .closed, done := true, cancelSet := false,
      queue := [⟨true, .pending, m⟩], flushed := [],
      openStat := .rejected "timeout", channelClosed := true,
      handed := [], dispatched := [], lateRejects := [] } rfl
  rw [hsplit, hpre]
  exact ⟨h1, h3.trans rfl, h2.trans rfl⟩

/-- C2: for messages submitted while the session is Opening, a
successful open flushes the queue through the new Opened state: the
sends are handed to the channel in submission order (A before B), the
receives are re-dispatched in order, the queue is emptied, and every
queued send promise is settled - resolved on channel success, rejected
otherwise - so nothing is silently dropped. -/
theorem claim_C2_flush_ordered_no_loss (μ : Type) (chOk : μ → Bool)
    (pre : List (SessEvent μ)) (hall : ∀ e ∈ pre, e.isIngress = true) :
    (sessRun chOk (pre ++ [.openOk])).sess = .opened ∧
    (sessRun chOk (pre ++ [.openOk])).queue = [] ∧
    (sessRun chOk (pre ++ [.openOk])).handed = pre.filterMap sendMsgOf ∧
    (sessRun chOk (pre ++ [.openOk])).dispatched = pre.filterMap recvMsgOf ∧
    ∀ pm ∈ (sessRun chOk (pre ++ [.openOk])).flushed,
      pm.isSend = true → pm.status ≠ .pending := by
  have h1 : sessRun chOk pre
      = { initOpening μ with queue := pre.filterMap ingressPending } := by
    have := sessFold_ingress chOk pre (initOpening μ) hall rfl
    simpa [sessRun, initOpening] using this
  have h2 : sessRun chOk (pre ++ [.openOk])
      = sessStep chOk (sessRun chOk pre) .openOk := by
    simp [sessRun]
  rw [h2, h1]
  refine ⟨?_, ?_, ?_, ?_, ?_⟩
  · simp [sessStep, initOpening]
  · simp [sessStep, initOpening]
  · simp [sessStep, initOpening, flushPendingQueue, filterMap_ingress_sends]
  · simp [sessStep, initOpening, flushPendingQueue, filterMap_ingress_recvs]
  · intro pm hpm hsend
    simp [sessStep, initOpening] at hpm
    exact flush_opened_settles chOk _ pm hpm hsend

/-- C2 witness: two sends then a receive queued while Opening, with a
channel accepting everything; the flush hands A then B to the channel,
redispatches r, empties the queue and settles both send promises. -/
theorem claim_C2_flush_ordered_no_loss_witness :
    (sessRun (fun _ => true)
        ([SessEvent.send "A", SessEvent.send "B", SessEvent.recv "r"]
          ++ [SessEvent.openOk])).handed = ["A", "B"] ∧
    (sessRun (fun _ => true)
        ([SessEvent.send "A", SessEvent.send "B", SessEvent.recv "r"]
          ++ [SessEvent.openOk])).dispatched = ["r"] := by
  have h := claim_C2_flush_ordered_no_loss String (fun _ => true)
    [SessEvent.send "A", SessEvent.send "B", SessEvent.recv "r"]
    (by intro e he; fin_cases he <;> rfl)
  exact ⟨h.2.2.1.trans (by rfl), h.2.2.2.1.trans (by rfl)⟩

/-! ## Claims about the channel package layer -/

/-- C4: a received package whose mark does not match the channel's
expected receiver mark is discarded by recvChannelPackage and never
reaches session.recvPackage, whatever the payload: for the object form
the mark must equal recvStringMark, for the string form the string must
begin with recvStringMark. -/
theorem claim_C4_mark_isolation (α : Type) (dec : Wire → Option α)
    (ms : MarkState) (recvable : Bool)
    (canRecv : ServChannelPackage α → Bool) :
    (∀ (mark : Wire) (data : α), mark ≠ ms.recvStringMark →
      ServChannel.recvChannelPackage dec ms recvable canRecv
        (.obj mark data) = none) ∧
    (∀ s : Wire, ¬ ms.recvStringMark.isPrefixOf s →
      ServChannel.recvChannelPackage dec ms recvable canRecv
        (.str s) = none) := by
  constructor
  · intro mark data hne
    simp [ServChannel.recvChannelPackage, ServChannel.frChannelPackage,
      ServChannel.frObjectPackage, hne]
  · intro s hpre
    simp [ServChannel.recvChannelPackage, ServChannel.frChannelPackage,
      ServChannel.frStringPackage, hpre]

/-- C4 witness: a master channel for session id X drops an object
package with a wrong mark and a string package from another session. -/
theorem claim_C4_mark_isolation_witness :
    ("bad".toList ≠ (ServChannel.init "X".toList true ⟨false⟩).recvStringMark ∧
      ServChannel.recvChannelPackage (fun _ => none)
        (ServChannel.init "X".toList true ⟨false⟩) true (fun _ => true)
        (.obj "bad".toList (0 : Nat)) = none) ∧
    (¬ (ServChannel.init "X".toList true ⟨false⟩).recvStringMark.isPrefixOf
        "$$Y$$$$2$$data".toList ∧
      ServChannel.recvChannelPackage (fun _ => (none : Option Nat))
        (ServChannel.init "X".toList true ⟨false⟩) true (fun _ => true)
        (.str "$$Y$$$$2$$data".toList) = none) := by
  refine ⟨⟨by decide, ?_⟩, ⟨by decide, ?_⟩⟩
  · exact (claim_C4_mark_isolation Nat (fun _ => none)
      (ServChannel.init "X".toList true ⟨false⟩) true (fun _ => true)).1
      "bad".toList 0 (by decide)
  · exact (claim_C4_mark_isolation Nat (fun _ => none)
      (ServChannel.init "X".toList true ⟨false⟩) true (fun _ => true)).2
      "$$Y$$$$2$$data".toList (by decide)

/-- C8 counterexample: the claim says the string-form fallback happens
only if the object-form attempt throws.  Here the object-form attempt
returns false without throwing (for instance ServWindowChannel's
sendChannelPackage returns false when it has no target window), yet
send goes on to attempt the string form and returns true. -/
theorem claim_C8_counterexample :
    ServChannel.send true (.ok false) (some ['x']) (.ok true)
      = ⟨true, [.objForm, .strForm]⟩ := by rfl

/-- C8 amended: if the channel is not sendable, send returns false
without attempting delivery; otherwise the object form is attempted
first, and the string form is attempted exactly when the object attempt
did not return true (it threw or returned false) and serialization
succeeded; send returns true exactly when some attempt returned true. -/
theorem claim_C8_send_fallback (sendable : Bool) (objOutcome : SendOutcome)
    (strEncoded : Option Wire) (strOutcome : SendOutcome) :
    (sendable = false →
      ServChannel.send sendable objOutcome strEncoded strOutcome
        = ⟨false, []⟩) ∧
    ((ServChannel.send sendable objOutcome strEncoded strOutcome).result
        = true ↔
      sendable = true ∧ (objOutcome = .ok true ∨
        (strEncoded.isSome = true ∧ strOutcome = .ok true))) ∧
    (SendAttempt.strForm ∈
        (ServChannel.send sendable objOutcome strEncoded strOutcome).attempts ↔
      sendable = true ∧ objOutcome ≠ .ok true ∧ strEncoded.isSome = true) := by
  refine ⟨?_, ?_, ?_⟩ <;>
    cases sendable <;> cases strEncoded <;>
      cases objOutcome with
      | ok b =>
        cases b <;>
          cases strOutcome with
          | ok c => cases c <;> simp [ServChannel.send]
          | thrown => simp [ServChannel.send]
      | thrown =>
        cases strOutcome with
        | ok c => cases c <;> simp [ServChannel.send]
        | thrown => simp [ServChannel.send]

/-- C8 witness: with a sendable channel whose object attempt throws and
whose string attempt succeeds, the amended theorem yields that the
string form was attempted and the send reported success. -/
theorem claim_C8_send_fallback_witness :
    SendAttempt.strForm ∈
      (ServChannel.send true .thrown (some ['x']) (.ok true)).attempts ∧
    (ServChannel.send true .thrown (some ['x']) (.ok true)).result = true := by
  refine ⟨?_, ?_⟩
  · exact (claim_C8_send_fallback true .thrown (some ['x']) (.ok true)).2.2.mpr
      ⟨rfl, by decide, rfl⟩
  · exact (claim_C8_send_fallback true .thrown (some ['x']) (.ok true)).2.1.mpr
      ⟨rfl, Or.inr ⟨rfl, rfl⟩⟩

/-- A list of the same length as a distinct list is never a prefix of
that list followed by anything. -/
theorem not_isPrefixOf_append_of_length_eq {a b c : List Char}
    (hlen : a.length = b.length) (hne : a ≠ b) :
    ¬ b.isPrefixOf (a ++ c) := by
  intro h
  rw [List.isPrefixOf_iff_prefix] at h
  obtain ⟨t, ht⟩ := h
  have : b = (a ++ c).take a.length := by
    rw [← ht, hlen, List.take_left]
  rw [List.take_left] at this
  exact hne this.symm

/-- C10: ServEventChannel.init overrides a caller-provided
ignoreSenderType = true with false before the base init runs, so the
computed marks are the full sender-role marks: the send mark is the
role mark of the local side, the send and receive string marks differ,
and a package the channel itself sent - in either form - is rejected
by its own recvChannelPackage, whatever the receive filter and the
decoder. -/
theorem claim_C10_event_channel_sender_marks (sessionId : Wire)
    (isMaster : Bool) (cfg : ServChannelConfig) :
    ServEventChannel.init sessionId isMaster cfg
        = ServChannel.init sessionId isMaster ⟨false⟩ ∧
    (ServEventChannel.init sessionId isMaster cfg).sendMark
        = roleMark (if isMaster then .MASTER else .SLAVE) ∧
    (ServEventChannel.init sessionId isMaster cfg).sendStringMark
        ≠ (ServEventChannel.init sessionId isMaster cfg).recvStringMark ∧
    (∀ (α : Type) (dec : Wire → Option α)
        (canRecv : ServChannelPackage α → Bool) (data : α),
      ServChannel.recvChannelPackage dec
        (ServEventChannel.init sessionId isMaster cfg) true canRecv
        (ServChannel.toObjectPackage
          (ServEventChannel.init sessionId isMaster cfg) data) = none) ∧
    (∀ (α : Type) (dec : Wire → Option α)
        (canRecv : ServChannelPackage α → Bool) (enc : α → Option Wire)
        (data : α),
      ServChannel.recvChannelPackage dec
        (ServEventChannel.init sessionId isMaster cfg) true canRecv
        (.str (ServChannel.toStringPackage enc
          (ServEventChannel.init sessionId isMaster cfg) data)) = none) := by
  have hsend : (ServEventChannel.init sessionId isMaster cfg).sendStringMark
      = (dollars ++ sessionId ++ dollars)
        ++ roleMark (if isMaster then .MASTER else .SLAVE) := by
    cases isMaster <;> rfl
  have hrecv : (ServEventChannel.init sessionId isMaster cfg).recvStringMark
      = (dollars ++ sessionId ++ dollars)
        ++ roleMark (if isMaster then .SLAVE else .MASTER) := by
    cases isMaster <;> rfl
  have hrole : roleMark (if isMaster then EServTerminal.MASTER else .SLAVE)
      ≠ roleMark (if isMaster then EServTerminal.SLAVE else .MASTER) := by
    cases isMaster <;> decide
  have hne : (ServEventChannel.init sessionId isMaster cfg).sendStringMark
      ≠ (ServEventChannel.init sessionId isMaster cfg).recvStringMark := by
    rw [hsend, hrecv]
    intro h
    exact hrole (List.append_cancel_left h)
  have hlen : (ServEventChannel.init sessionId isMaster cfg).sendStringMark.length
      = (ServEventChannel.init sessionId isMaster cfg).recvStringMark.length := by
    rw [hsend, hrecv]
    cases isMaster <;> simp [roleMark] <;> decide
  refine ⟨rfl, by cases isMaster <;> rfl, hne, ?_, ?_⟩
  · intro α dec canRecv data
    exact (claim_C4_mark_isolation α dec _ true canRecv).1 _ data hne
  · intro α dec canRecv enc data
    cases henc : enc data with
    | some raw =>
      refine (claim_C4_mark_isolation α dec _ true canRecv).2 _ ?_
      rw [ServChannel.toStringPackage, henc]
      exact not_isPrefixOf_append_of_length_eq hlen hne
    | none =>
      refine (claim_C4_mark_isolation α dec _ true canRecv).2 _ ?_
      rw [ServChannel.toStringPackage, henc]
      intro h
      rw [List.isPrefixOf_iff_prefix] at h
      have := List.eq_nil_of_prefix_nil h
      rw [hrecv] at this
      simp [dollars] at this

/-- C10 witness: for session id X with a master side configured with
ignoreSenderType = true, the event channel still computes the MASTER
send mark, distinct string marks, and rejects its own sent object
package. -/
theorem claim_C10_event_channel_sender_marks_witness :
    (ServEventChannel.init "X".toList true ⟨true⟩).sendMark
        = roleMark .MASTER ∧
    (ServEventChannel.init "X".toList true ⟨true⟩).sendStringMark
        ≠ (ServEventChannel.init "X".toList true ⟨true⟩).recvStringMark ∧
    ServChannel.recvChannelPackage (fun _ => (none : Option Nat))
      (ServEventChannel.init "X".toList true ⟨true⟩) true (fun _ => true)
      (ServChannel.toObjectPackage
        (ServEventChannel.init "X".toList true ⟨true⟩) (0 : Nat)) = none := by
  have h := claim_C10_event_channel_sender_marks "X".toList true ⟨true⟩
  exact ⟨h.2.1, h.2.2.1, h.2.2.2.1 Nat (fun _ => none) (fun _ => true) 0⟩

/-! ## Master-side open sequences
(ServWindowChannel.openAsMaster, ServMessageChannel.ts lines 337-385;
ServEventLoaderChannel.open / openAsMaster, ServChannel.ts lines
555-625)

An open sequence is modelled as the list of primitive steps the source
performs in program order, each step an assignment to the sendable or
recvable flag, the observation of the slave echo token, or a neutral
step (window creation, loader load).  The snapshots of the flags along
a trace are the observation points available to any other code running
between two steps of the single-threaded interleaving. -/

/-- Observable channel flags at one point of an open sequence. -/
structure ChObs where
  sendable : Bool
  recvable : Bool
  echoObserved : Bool
deriving DecidableEq, Repr

/-- Primitive step of an open sequence. -/
inductive ChEvent where
  | setSendable (b : Bool)
  | setRecvable (b : Bool)
  | windowCreated
  | loadDone
  | echo
deriving DecidableEq, Repr

/-- Effect of one step on the observable flags. -/
def chApply (st : ChObs) : ChEvent → ChObs
  | .setSendable b => { st with sendable := b }
  | .setRecvable b => { st with recvable := b }
  | .echo => { st with echoObserved := true }
  | .windowCreated => st
  | .loadDone => st

/-- All observation points along a trace, the starting point included. -/
def chSnapshots (st : ChObs) : List ChEvent → List ChObs
  | [] => [st]
  | e :: tr => st :: chSnapshots (chApply st e) tr

/-- Flags right after ServChannel.init: not sendable, not recvable. -/
def chInit : ChObs := ⟨false, false, false⟩

/-- ServWindowChannel.openAsMaster (ServMessageChannel.ts lines
337-385): the echo wait is registered, the window is created, the
message listener is attached (recvable := true), and only after the
echo promise resolves is sendable set to true.  When the escape hatch
(master.dontWaitEcho or options.dontWaitSlaveEcho) is set the echo
promise is already resolved and no echo step occurs.  The echo token
can arrive at any time after the wait listener is installed, so all
its interleavings with the other steps are listed. -/
def ServWindowChannel.masterOpenTraces (dontWaitEcho : Bool) :
    List (List ChEvent) :=
  if dontWaitEcho then
    [[.windowCreated, .setRecvable true, .setSendable true]]
  else
    [[.echo, .windowCreated, .setRecvable true, .setSendable true],
     [.windowCreated, .echo, .setRecvable true, .setSendable true],
     [.windowCreated, .setRecvable true, .echo, .setSendable true]]

/-- ServEventLoaderChannel.open and openAsMaster (ServChannel.ts lines
555-625): the base ServEventChannel.open attaches the listener
(recvable := true) and sets sendable := true; after the await the
continuation resets sendable := false; then the loader is created and
loaded, the echo is awaited, and sendable := true again.  The echo
handler is installed before the load starts and needs the attached
listener, so the echo may arrive before or after the load finishes. -/
def ServEventLoaderChannel.masterOpenTraces (dontWaitEcho : Bool) :
    List (List ChEvent) :=
  if dontWaitEcho then
    [[.setRecvable true, .setSendable true, .setSendable false,
      .loadDone, .setSendable true]]
  else
    [[.setRecvable true, .setSendable true, .setSendable false,
      .loadDone, .echo, .setSendable true],
     [.setRecvable true, .setSendable true, .setSendable false,
      .echo, .loadDone, .setSendable true]]

/-- Handshake property claimed for the active side: at no observation
point is sendable true unless the echo token has been observed or the
escape hatch was set. -/
def sendableOnlyAfterEcho (dontWaitEcho : Bool) (tr : List ChEvent) : Prop :=
  ∀ st ∈ chSnapshots chInit tr,
    st.sendable = true → (st.echoObserved = true ∨ dontWaitEcho = true)

/-- C3 counterexample: on the event-loader channel the claim fails.
In the echo-waiting mode, the open sequence contains the point right
after the base ServEventChannel.open (which sets sendable := true,
ServChannel.ts lines 349-362) and before the continuation of
ServEventLoaderChannel.open resets it to false (line 566): there
sendable is true with no echo observed and no escape hatch set. -/
theorem claim_C3_counterexample :
    [ChEvent.setRecvable true, .setSendable true, .setSendable false,
      .loadDone, .echo, .setSendable true]
        ∈ ServEventLoaderChannel.masterOpenTraces false ∧
    ¬ sendableOnlyAfterEcho false
      [ChEvent.setRecvable true, .setSendable true, .setSendable false,
        .loadDone, .echo, .setSendable true] := by
  constructor
  · decide
  · intro h
    have := h ⟨true, true, false⟩ (by decide) rfl
    simp at this

/-- C3 amended: on the window-postMessage channel the handshake
property holds at every point of every master open sequence, with or
without the escape hatch; on the event-loader channel it holds at
every point from the sendable reset at the start of openAsMaster
onwards (the first three snapshots - initial state, after the listener
attach, after the transient sendable := true of the base open - are
excluded, the transient point among them being the violation). -/
theorem claim_C3_master_sendable_after_echo (d : Bool) :
    (∀ tr ∈ ServWindowChannel.masterOpenTraces d,
      sendableOnlyAfterEcho d tr) ∧
    (∀ tr ∈ ServEventLoaderChannel.masterOpenTraces d,
      ∀ st ∈ (chSnapshots chInit tr).drop 3,
        st.sendable = true → (st.echoObserved = true ∨ d = true)) := by
  unfold sendableOnlyAfterEcho
  cases d <;> decide

/-- C3 witness: the final point of the echo-waiting window master open
has sendable true, and the theorem confirms the echo was observed. -/
theorem claim_C3_master_sendable_after_echo_witness :
    (⟨true, true, true⟩ : ChObs).echoObserved = true ∨ false = true := by
  exact (claim_C3_master_sendable_after_echo false).1
    [ChEvent.windowCreated, .setRecvable true, .echo, .setSendable true]
    (by decide) ⟨true, true, true⟩ (by decide) rfl

/-! ## Service server API dispatch with ACL gating
(ServServiceServer.handleAPIMessage, src/service/ServServiceServer.ts
lines 200-278)

The arguments and return data of an API call are modelled by a type
parameter.  The service instance resolved by getServiceByID is
modelled by its descriptor meta, the set of api names that are
functions on the instance, and the invocation itself, which either
returns a settled value or throws/rejects with an error string.  The
logACL audit channel (src/common/common.ts lines 87-101) is modelled
as the list of audit entries emitted during the dispatch. -/

/-- Transform pair attached to an API or event option
(ServService.ts). -/
structure ServApiTransform (α : Type) where
  send : α → α
  recv : α → α

/-- Per-API options (ServService.ts): fire-and-forget flag and the
optional transforms; the timeout is client-side only. -/
structure ServAPIOptions (α : Type) where
  dontRetn : Bool := false
  onCallTransform : Option (ServApiTransform α) := none
  onRetnTransform : Option (ServApiTransform α) := none

/-- API metadata entry of a service descriptor. -/
structure ServAPIMeta (α : Type) where
  name : String
  options : Option (ServAPIOptions α) := none

/-- Service descriptor metadata, as consulted by handleAPIMessage. -/
structure ServServiceMeta (α : Type) where
  id : String
  version : String
  apis : List (ServAPIMeta α)
  noRPCCallEvent : Bool := false

/-- Live service instance as used by handleAPIMessage: its meta, which
api names are functions on it, and the invocation behaviour. -/
structure ServiceImpl (α : Type) where
  meta : ServServiceMeta α
  needCallContext : Bool := false
  hasApiFn : String → Bool
  call : String → α → Except String α

/-- ACL resolver (ServServiceServerACLResolver): consulted for
service-level then API-level access.  The API meta handed over may be
undefined when the invoked api is a function on the instance but not
declared in the descriptor (the source looks it up with find and a
non-null assertion). -/
structure ServServiceServerACLResolver (α : Type) where
  canAccessService : ServServiceMeta α → Bool
  canAccessAPI : ServServiceMeta α → Option (ServAPIMeta α) → Bool

/-- Outcome of one handleAPIMessage dispatch: whether the underlying
implementation method ran, the logACL audit entries, whether the
generic RPC event fired, the settled return promise, and the return
message sent back (none when the api is fire-and-forget or when the
return was skipped). -/
structure HandleAPIResult (α : Type) where
  implInvoked : Bool
  aclLog : List String
  rpcEventEmitted : Bool
  retn : Except String α
  returnSent : Option (Except String α)

/-- Options of the api meta found for the called api name. -/
def apiOptionsOf (meta : ServServiceMeta α) (api : String) :
    Option (ServAPIOptions α) :=
  (meta.apis.find? (fun i => i.name = api)).bind (·.options)

/-- Fire-and-forget flag of the called api
(apiMeta.options.dontRetn in the source). -/
def apiDontRetn (meta : ServServiceMeta α) (api : String) : Bool :=
  match apiOptionsOf meta api with
  | some o => o.dontRetn
  | none => false

/-- Invocation branch of handleAPIMessage (ServServiceServer.ts lines
229-248): the inbound transform is applied to the arguments, the
implementation method is called, and on success the outbound transform
is applied to the result. -/
def invokeAPI (service : ServiceImpl α) (api : String) (args : α) :
    Except String α :=
  let opts := apiOptionsOf service.meta api
  let args1 :=
    match opts with
    | some o =>
      match o.onCallTransform with
      | some t => t.recv args
      | none => args
    | none => args
  match service.call api args1 with
  | .ok data =>
    .ok (match opts with
      | some o =>
        match o.onRetnTransform with
        | some t => t.send data
        | none => data
      | none => data)
  | .error e => .error e

/-- ServServiceServer.handleAPIMessage (ServServiceServer.ts lines
200-278).  Unknown service rejects and sends the rejection.  Otherwise:
unknown api rejects; else, with an ACL resolver configured, a
service-level denial or an API-level denial logs an audit entry and
rejects without invoking the implementation; else the implementation
is invoked through the transforms.  The RPC event fires unless the
descriptor opts out; the return message carries the settled outcome
and is omitted entirely when the called api is fire-and-forget. -/
def ServServiceServer.handleAPIMessage
    (resolver : Option (ServServiceServerACLResolver α))
    (lookup : String → Option (ServiceImpl α))
    (serviceId api : String) (args : α) : HandleAPIResult α :=
  match lookup serviceId with
  | none =>
    let e : Except String α := .error ("Unknown service [" ++ serviceId ++ "]")
    ⟨false, [], false, e, some e⟩
  | some service =>
    let meta := service.meta
    let core : Bool × List String × Except String α :=
      if ¬ service.hasApiFn api then
        (false, [],
          .error ("Unknown api [" ++ api ++ "] in service " ++ serviceId))
      else
        match resolver with
        | some R =>
          if ¬ R.canAccessService meta then
            (false,
             ["API denied because of server ACL, [" ++ serviceId ++ "]["
                ++ api ++ "]"],
             .error ("Access service " ++ serviceId ++ " denied"))
          else if ¬ R.canAccessAPI meta
              (meta.apis.find? (fun i => i.name = api)) then
            (false,
             ["API denied because of api ACL, [" ++ serviceId ++ "]["
                ++ api ++ "]"],
             .error ("Access api " ++ api ++ " denied in service "
                ++ serviceId))
          else (true, [], invokeAPI service api args)
        | none => (true, [], invokeAPI service api args)
    { implInvoked := core.1
      aclLog := core.2.1
      rpcEventEmitted := !meta.noRPCCallEvent
      retn := core.2.2
      returnSent := if apiDontRetn meta api then none else some core.2.2 }

/-- Sample fire-and-forget service used to exercise the ACL gate: one
api foo declared dontRetn, implementation echoing its argument. -/
def svcFireForget : ServiceImpl Nat :=
  { meta := { id := "S", version := "1.0.0",
              apis := [{ name := "foo",
                         options := some { dontRetn := true } }] }
    hasApiFn := fun _ => true
    call := fun _ a => .ok a }

/-- Registry lookup exposing only svcFireForget under id S. -/
def lookupS : String → Option (ServiceImpl Nat) :=
  fun id => if id = "S" then some svcFireForget else none

/-- ACL resolver denying service-level access to everything. -/
def denyAllACL : ServServiceServerACLResolver Nat :=
  { canAccessService := fun _ => false
    canAccessAPI := fun _ _ => true }

/-- C5 counterexample: the claim says a denied call is answered with a
rejection.  For a fire-and-forget api (dontRetn), the denial path in
handleAPIMessage reaches the dontRetn short-circuit
(ServServiceServer.ts lines 270-272) and returns before
sendReturnMessage, so no answer at all is sent - though the
implementation is indeed not invoked and the denial is logged. -/
theorem claim_C5_counterexample :
    (ServServiceServer.handleAPIMessage (some denyAllACL) lookupS
        "S" "foo" 0).returnSent = none ∧
    (ServServiceServer.handleAPIMessage (some denyAllACL) lookupS
        "S" "foo" 0).implInvoked = false ∧
    (ServServiceServer.handleAPIMessage (some denyAllACL) lookupS
        "S" "foo" 0).aclLog
      = ["API denied because of server ACL, [S][foo]"] := by
  exact ⟨rfl, rfl, rfl⟩

/-- C5 amended: with an ACL resolver configured, on a known service
whose called api is a function, a service-level denial (respectively an
API-level denial) rejects with the corresponding access-denied error,
never invokes the implementation, and logs the denial on the audit
channel; the rejection is sent back as the answer unless the called api
is declared fire-and-forget (dontRetn), in which case no return message
is sent. -/
theorem claim_C5_acl_denial_gates_call (α : Type)
    (R : ServServiceServerACLResolver α)
    (lookup : String → Option (ServiceImpl α)) (serviceId api : String)
    (args : α) (service : ServiceImpl α)
    (hfound : lookup serviceId = some service)
    (hfn : service.hasApiFn api = true) :
    (R.canAccessService service.meta = false →
      ServServiceServer.handleAPIMessage (some R) lookup serviceId api args
        = { implInvoked := false
            aclLog := ["API denied because of server ACL, [" ++ serviceId
              ++ "][" ++ api ++ "]"]
            rpcEventEmitted := !service.meta.noRPCCallEvent
            retn := .error ("Access service " ++ serviceId ++ " denied")
            returnSent :=
              if apiDontRetn service.meta api then none
              else some (.error ("Access service " ++ serviceId
                ++ " denied")) }) ∧
    (R.canAccessService service.meta = true →
      R.canAccessAPI service.meta
          (service.meta.apis.find? (fun i => i.name = api)) = false →
      ServServiceServer.handleAPIMessage (some R) lookup serviceId api args
        = { implInvoked := false
            aclLog := ["API denied because of api ACL, [" ++ serviceId
              ++ "][" ++ api ++ "]"]
            rpcEventEmitted := !service.meta.noRPCCallEvent
            retn := .error ("Access api " ++ api ++ " denied in service "
              ++ serviceId)
            returnSent :=
              if apiDontRetn service.meta api then none
              else some (.error ("Access api " ++ api
                ++ " denied in service " ++ serviceId)) }) := by
  constructor
  · intro hsvc
    simp [ServServiceServer.handleAPIMessage, hfound, hfn, hsvc]
  · intro hsvc hapi
    simp [ServServiceServer.handleAPIMessage, hfound, hfn, hsvc, hapi]

/-- C5 witness: applying the amended theorem to the fire-and-forget
sample yields the complete denial outcome: impl not invoked, denial
logged, rejected promise, and no return sent because of dontRetn. -/
theorem claim_C5_acl_denial_gates_call_witness :
    ServServiceServer.handleAPIMessage (some denyAllACL) lookupS
        "S" "foo" 1
      = { implInvoked := false
          aclLog := ["API denied because of server ACL, [S][foo]"]
          rpcEventEmitted := true
          retn := .error "Access service S denied"
          returnSent := none } := by
  have h := (claim_C5_acl_denial_gates_call Nat denyAllACL lookupS
    "S" "foo" 1 svcFireForget rfl rfl).1 rfl
  simpa [svcFireForget, apiDontRetn, apiOptionsOf] using h

/-! ## Service registry: addService
(ServServiceManager.addService, src/service/ServServiceManager.ts
lines 559-598; asyncThrow / asyncThrowMessage, src/common/common.ts
lines 114-135)

Descriptor identity matters here: addService compares impl.meta() and
decl.meta() with strict object inequality, so metas are modelled by
identity tokens; a token-to-id function gives the id stored in the
meta.  asyncThrow never raises at the call site: it wraps the error
and rethrows it from a setTimeout callback (or merely logs it under
test), itself inside a try/catch; asyncThrowMessage prefixes the
message with the [RPCKIT] tag.  Deferred throws are therefore modelled
as a list of reports that surface only after the call has returned,
and the whole addService body is wrapped in a try/catch that turns any
escaping exception into such a deferred report plus a false return, so
the embedded function returns normally on every input. -/

/-- Message built by asyncThrowMessage (common.ts lines 132-135). -/
def asyncThrowMessage (msg : String) : String :=
  "[RPCKIT] " ++ msg

/-- Service declaration or implementation class, reduced to the
identity token of the meta object its static meta() returns (none when
meta() yields undefined). -/
structure ServiceDecl where
  metaTok : Option Nat
deriving DecidableEq, Repr

/-- Registry state: live instances and registered infos keyed by
service id, plus the next fresh instance token. -/
structure MgrState where
  services : List (String × Nat)
  serviceInfos : List (String × Nat)
  nextInst : Nat
deriving DecidableEq, Repr

/-- Lookup in an association list keyed by service id (JS object
property access). -/
def assocFind (l : List (String × Nat)) (id : String) : Option Nat :=
  (l.find? (fun p => p.1 = id)).map (·.2)

/-- Result of one addService call: the boolean the call returns, the
state after the call, and the deferred asyncThrow reports that will
surface only on a later macrotask. -/
structure AddResult where
  ok : Bool
  state : MgrState
  deferredThrows : List String
deriving DecidableEq, Repr

/-- ServServiceManager.addService (ServServiceManager.ts lines
559-598).  Missing decl meta, an impl meta not identical to the decl
meta, and an already-registered id each report through
asyncThrowMessage and return false, leaving the registry untouched;
otherwise the info is stored and, unless lazy, the instance is
generated eagerly. -/
def ServServiceManager.addService (metaId : Nat → String) (s : MgrState)
    (decl impl : ServiceDecl) (lazy : Bool) : AddResult :=
  match decl.metaTok with
  | none => ⟨false, s, [asyncThrowMessage "Service meta is undefined"]⟩
  | some tok =>
    if impl.metaTok ≠ some tok then
      ⟨false, s, [asyncThrowMessage (metaId tok
        ++ " impl meta is not equal to decl, Maybe you have mutiple decl npm package")]⟩
    else
      let id := metaId tok
      match assocFind s.serviceInfos id with
      | some _ => ⟨false, s, [asyncThrowMessage (id ++ " has added")]⟩
      | none =>
        let s1 := { s with serviceInfos := s.serviceInfos ++ [(id, tok)] }
        if lazy then ⟨true, s1, []⟩
        else ⟨true, { s1 with
            services := s1.services ++ [(id, s1.nextInst)],
            nextInst := s1.nextInst + 1 }, []⟩

/-- C6 counterexample: registering a second service with the already
registered id X makes addService return false normally, with the error
reported only as a deferred asynchronous throw - there is no
synchronous exception at the call site, contrary to the claim (the
embedded addService is a total function into AddResult precisely
because every error path of the source ends in asyncThrow plus a
false return, under an enclosing try/catch). -/
theorem claim_C6_counterexample :
    ServServiceManager.addService (fun _ => "X")
        { services := [("X", 0)], serviceInfos := [("X", 5)], nextInst := 1 }
        ⟨some 6⟩ ⟨some 6⟩ false
      = { ok := false
          state := { services := [("X", 0)], serviceInfos := [("X", 5)],
                     nextInst := 1 }
          deferredThrows := ["[RPCKIT] X has added"] } := by
  rfl

/-- C6 amended: a duplicate registration or a mismatched descriptor
identity makes addService return false without changing the registry,
and the contract violation is reported asynchronously through a
deferred asyncThrow (setTimeout), not raised as a synchronous
exception at the call site. -/
theorem claim_C6_contract_errors_deferred (metaId : Nat → String)
    (s : MgrState) (decl impl : ServiceDecl) (lazy : Bool) (tok : Nat)
    (hdecl : decl.metaTok = some tok)
    (hbad : impl.metaTok ≠ some tok ∨
      (assocFind s.serviceInfos (metaId tok)).isSome = true) :
    (ServServiceManager.addService metaId s decl impl lazy).ok = false ∧
    (ServServiceManager.addService metaId s decl impl lazy).state = s ∧
    (ServServiceManager.addService metaId s decl impl lazy).deferredThrows
      ≠ [] := by
  cases hbad with
  | inl hmm =>
    simp [ServServiceManager.addService, hdecl, hmm]
  | inr hdup =>
    by_cases hmm : impl.metaTok = some tok
    · obtain ⟨tok0, htok0⟩ := Option.isSome_iff_exists.mp hdup
      simp [ServServiceManager.addService, hdecl, hmm, htok0]
    · simp [ServServiceManager.addService, hdecl, hmm]

/-- C6 witness: the amended theorem applied to a duplicate
registration of id X. -/
theorem claim_C6_contract_errors_deferred_witness :
    (ServServiceManager.addService (fun _ => "X")
        { services := [("X", 0)], serviceInfos := [("X", 5)], nextInst := 1 }
        ⟨some 6⟩ ⟨some 6⟩ true).ok = false ∧
    (ServServiceManager.addService (fun _ => "X")
        { services := [("X", 0)], serviceInfos := [("X", 5)], nextInst := 1 }
        ⟨some 6⟩ ⟨some 6⟩ true).state
      = { services := [("X", 0)], serviceInfos := [("X", 5)],
          nextInst := 1 } ∧
    (ServServiceManager.addService (fun _ => "X")
        { services := [("X", 0)], serviceInfos := [("X", 5)], nextInst := 1 }
        ⟨some 6⟩ ⟨some 6⟩ true).deferredThrows ≠ [] := by
  exact claim_C6_contract_errors_deferred (fun _ => "X")
    { services := [("X", 0)], serviceInfos := [("X", 5)], nextInst := 1 }
    ⟨some 6⟩ ⟨some 6⟩ true 6 rfl (Or.inr (by decide))

/-! ## Service registry: lookup and refer
(ServServiceManager.getServiceByID / _getService, ServServiceManager.ts
lines 467-499; ServServiceRefer.canRefer / getServiceByID, lines
329-371)

Live instances are identity tokens; lazy generation draws a fresh
token and caches it under the service id, which is also the id the
registered decl's meta carries (addService keys the info by that
meta's id).  A regular expression is modelled by its test predicate, a
predicate pattern by its function. -/

/-- Single refer pattern: exact string, regular expression, or
predicate; told apart by typeof and instanceof in the source. -/
inductive SingleReferPattern where
  | str (s : String)
  | regex (test : String → Bool)
  | fn (f : String → Bool)

/-- Refer pattern: a single pattern or an array of single patterns. -/
inductive ServServiceReferPattern where
  | single (p : SingleReferPattern)
  | arr (ps : List SingleReferPattern)

/-- JavaScript truthiness of a pattern value, as tested by the
canRefer guard: the empty string is falsy; regular expressions,
functions and arrays (even empty ones) are objects, hence truthy. -/
def patternTruthy : ServServiceReferPattern → Bool
  | .single (.str s) => if s = "" then false else true
  | _ => true

/-- Match of one single pattern against a service id, as dispatched by
typeof / instanceof in canRefer: strict equality for strings, test for
regular expressions, application for functions. -/
def matchSingle (service : String) : SingleReferPattern → Bool
  | .str s => s = service
  | .regex t => t service
  | .fn f => f service

/-- ServServiceRefer.canRefer (ServServiceManager.ts lines 329-363):
a falsy pattern refers to nothing; an array pattern matches when some
element matches; a single pattern matches by its own kind. -/
def ServServiceRefer.canRefer (pattern : ServServiceReferPattern)
    (service : String) : Bool :=
  if ¬ patternTruthy pattern then false
  else
    match pattern with
    | .single p => matchSingle service p
    | .arr ps => ps.any (matchSingle service)

/-- Modelled from the spec: the matching relation the claim quantifies
over - "a pattern matching X (string, RegExp, predicate, or an array
of these)" - an exact string matches by equality, a regular expression
by its test, a predicate by application, an array when some element
matches.  Kept separate from canRefer to compare the source guard with
the spec wording. -/
def referPatternMatchesSpec (pattern : ServServiceReferPattern)
    (service : String) : Bool :=
  match pattern with
  | .single p => matchSingle service p
  | .arr ps => ps.any (matchSingle service)

/-- ServServiceManager.getServiceByID backed by _getService
(ServServiceManager.ts lines 467-499): a cached instance is returned
as is; otherwise a registered info generates a fresh instance, caches
it under the id and returns it; an unknown id yields undefined. -/
def ServServiceManager.getServiceByID (s : MgrState) (id : String) :
    Option Nat × MgrState :=
  match assocFind s.services id with
  | some inst => (some inst, s)
  | none =>
    match assocFind s.serviceInfos id with
    | none => (none, s)
    | some _ =>
      (some s.nextInst,
       { s with services := s.services ++ [(id, s.nextInst)],
                nextInst := s.nextInst + 1 })

/-- ServServiceRefer.getServiceByID (ServServiceManager.ts lines
365-371): undefined unless canRefer accepts the id, else exactly the
backing manager's getServiceByID. -/
def ServServiceRefer.getServiceByID (pattern : ServServiceReferPattern)
    (s : MgrState) (id : String) : Option Nat × MgrState :=
  if ServServiceRefer.canRefer pattern id then
    ServServiceManager.getServiceByID s id
  else (none, s)

/-- C7 counterexample: with the empty-string pattern and the service id
equal to the empty string, the pattern matches the id in the claim's
sense (exact string equality), the backing registry A holds the
instance, yet the referring registry B returns undefined: the falsy
pattern guard of canRefer rejects the empty-string pattern outright. -/
theorem claim_C7_counterexample :
    referPatternMatchesSpec (.single (.str "")) "" = true ∧
    (ServServiceManager.getServiceByID
        { services := [("", 7)], serviceInfos := [("", 5)], nextInst := 8 }
        "").1 = some 7 ∧
    (ServServiceRefer.getServiceByID (.single (.str ""))
        { services := [("", 7)], serviceInfos := [("", 5)], nextInst := 8 }
        "").1 = none := by
  exact ⟨rfl, rfl, rfl⟩

/-- C7 amended: canRefer agrees with the spec's matching relation
exactly on truthy patterns (the empty-string pattern never matches);
whenever canRefer accepts an id the refer lookup is literally the
backing manager's lookup - same instance, same resulting registry
state - and whenever canRefer rejects it the refer lookup returns
undefined and leaves the registry untouched. -/
theorem claim_C7_refer_lookup (pattern : ServServiceReferPattern)
    (s : MgrState) (id : String) :
    (ServServiceRefer.canRefer pattern id
      = (patternTruthy pattern && referPatternMatchesSpec pattern id)) ∧
    (ServServiceRefer.canRefer pattern id = true →
      ServServiceRefer.getServiceByID pattern s id
        = ServServiceManager.getServiceByID s id) ∧
    (ServServiceRefer.canRefer pattern id = false →
      ServServiceRefer.getServiceByID pattern s id = (none, s)) := by
  refine ⟨?_, ?_, ?_⟩
  · cases pattern with
    | single p =>
      cases p with
      | str str0 =>
        by_cases hs : str0 = "" <;>
          simp [ServServiceRefer.canRefer, patternTruthy,
            referPatternMatchesSpec, matchSingle, hs]
      | regex t =>
        simp [ServServiceRefer.canRefer, patternTruthy,
          referPatternMatchesSpec]
      | fn f =>
        simp [ServServiceRefer.canRefer, patternTruthy,
          referPatternMatchesSpec]
    | arr ps =>
      simp [ServServiceRefer.canRefer, patternTruthy,
        referPatternMatchesSpec]
  · intro h
    simp [ServServiceRefer.getServiceByID, h]
  · intro h
    simp [ServServiceRefer.getServiceByID, h]

/-- C7 witness: a truthy pattern equal to the id X makes the refer
lookup return exactly the backing lookup's result - here the lazily
generated instance 8 - with the same updated registry state. -/
theorem claim_C7_refer_lookup_witness :
    ServServiceRefer.getServiceByID (.single (.str "X"))
        { services := [], serviceInfos := [("X", 5)], nextInst := 8 } "X"
      = ServServiceManager.getServiceByID
        { services := [], serviceInfos := [("X", 5)], nextInst := 8 } "X" := by
  exact (claim_C7_refer_lookup (.single (.str "X"))
    { services := [], serviceInfos := [("X", 5)], nextInst := 8 } "X").2.1 rfl

/-! ## AsyncMutex (src/common/AsyncMutex.ts)

A queued lock is identified by the arrival order of its lock() call;
its granted flag models its Deferred being resolved with the unlock
function.  The lockQueue and the grant events are tracked explicitly;
unlock events carry the identity of the lock whose unlock closure runs
(unlock closures are only obtainable through a grant, but the safety
statements below hold for arbitrary unlock events). -/

/-- One entry of AsyncMutex.lockQueue: arrival identity and whether its
deferred has been resolved (the lock granted). -/
structure MLock where
  id : Nat
  granted : Bool
deriving DecidableEq, Repr

/-- Mutex state: the lock queue, the next arrival identity, and the
log of grant events in the order they were emitted. -/
structure MutexState where
  queue : List MLock
  nextId : Nat
  grants : List Nat
deriving DecidableEq, Repr

/-- Freshly constructed mutex: empty queue. -/
def mutexInit : MutexState := ⟨[], 0, []⟩

/-- AsyncMutex constructor (AsyncMutex.ts lines 17-20):
lockMax = Math.min(max || 1, 1), where a missing or zero max is
replaced by 1 before clamping. -/
def lockMaxOf (max : Option Int) : Int :=
  min (match max with
    | none => 1
    | some mv => if mv = 0 then 1 else mv) 1

/-- Branch of tryLock for lockMax = 1 (AsyncMutex.ts lines 56-60):
resolve the queue head if it exists and is not yet finished. -/
def resolveHead : List MLock → List MLock × List Nat
  | [] => ([], [])
  | l :: rest =>
    if l.granted then (l :: rest, [])
    else ({ l with granted := true } :: rest, [l.id])

/-- Loop of the general tryLock branch (AsyncMutex.ts lines 61-68):
for each index below the iteration bound, resolve that queue entry if
it is not yet finished. -/
def resolveFirstN : Nat → List MLock → List MLock × List Nat
  | 0, q => (q, [])
  | _ + 1, [] => ([], [])
  | n + 1, l :: rest =>
    let r := resolveFirstN n rest
    if l.granted then (l :: r.1, r.2)
    else ({ l with granted := true } :: r.1, l.id :: r.2)

/-- AsyncMutex.tryLock (AsyncMutex.ts lines 55-69): the head-only
branch when lockMax is exactly 1, otherwise the index loop, whose
iteration count is the integer lockMax clamped to a natural number (a
negative lockMax runs zero iterations and never grants anything). -/
def tryLock (m : Int) (q : List MLock) : List MLock × List Nat :=
  if m = 1 then resolveHead q else resolveFirstN m.toNat q

/-- Events on a mutex: a lock() call, or the unlock closure of the
lock with the given arrival identity running. -/
inductive MEvent where
  | lock
  | unlock (id : Nat)
deriving DecidableEq, Repr

/-- One step of the mutex (AsyncMutex.ts lines 22-39): lock pushes a
fresh pending entry and runs tryLock; unlock removes its own entry
from the queue (indexOf finds nothing on a second run) and runs
tryLock.  The second component lists the grants emitted by the
embedded tryLock call. -/
def mutexStep (m : Int) (s : MutexState) : MEvent → MutexState × List Nat
  | .lock =>
    let r := tryLock m (s.queue ++ [⟨s.nextId, false⟩])
    (⟨r.1, s.nextId + 1, s.grants ++ r.2⟩, r.2)
  | .unlock id =>
    let r := tryLock m (s.queue.eraseP (fun l => l.id == id))
    (⟨r.1, s.nextId, s.grants ++ r.2⟩, r.2)

/-- Run of a mutex over a list of events. -/
def mutexRun (m : Int) (evts : List MEvent) : MutexState :=
  evts.foldl (fun s e => (mutexStep m s e).1) mutexInit

/-- AsyncMutex.lockGuard (AsyncMutex.ts lines 41-53): await lock(),
run the wrapped function inside a try whose finally always invokes the
obtained unlock - on normal completion and on a thrown or rejected
completion alike - and propagate the function's outcome. -/
def lockGuardRun (m : Int) (s : MutexState) (body : Except E A) :
    Except E A × MutexState :=
  let lockedId := s.nextId
  let s1 := (mutexStep m s .lock).1
  match body with
  | .ok a => (.ok a, (mutexStep m s1 (.unlock lockedId)).1)
  | .error err => (.error err, (mutexStep m s1 (.unlock lockedId)).1)

/-- Invariant relating a lock queue, a grant log and the next arrival
identity: queue identities strictly increase (arrival order), are
fresh, only the head can be granted, the grant log strictly increases
(FIFO grant order), its entries are not fresh, and every grant
precedes every still-pending queued lock. -/
structure QInv (n : Nat) (q : List MLock) (G : List Nat) : Prop where
  sorted : q.Pairwise (fun a b => a.id < b.id)
  ids_lt : ∀ l ∈ q, l.id < n
  tail_pending : ∀ l ∈ q.tail, l.granted = false
  g_sorted : G.Pairwise (· < ·)
  g_lt : ∀ g ∈ G, g < n
  g_lt_pending : ∀ g ∈ G, ∀ l ∈ q, l.granted = false → g < l.id

/-- Mutex state invariant. -/
def MutexInv (s : MutexState) : Prop :=
  QInv s.nextId s.queue s.grants

/-- The fresh mutex satisfies the invariant. -/
theorem mutexInv_init : MutexInv mutexInit := by
  constructor <;> simp [mutexInit]

/-- Pushing a fresh pending lock preserves the invariant with the next
identity advanced. -/
theorem qinv_push (h : QInv n q G) :
    QInv (n + 1) (q ++ [⟨n, false⟩]) G := by
  constructor
  · refine List.pairwise_append.mpr ⟨h.sorted, by simp, ?_⟩
    intro a ha b hb
    simp only [List.mem_singleton] at hb
    subst hb
    exact h.ids_lt a ha
  · intro l hl
    rcases List.mem_append.mp hl with hl | hl
    · exact Nat.lt_succ_of_lt (h.ids_lt l hl)
    · simp only [List.mem_singleton] at hl
      subst hl
      exact Nat.lt_succ_self n
  · intro l hl
    cases q with
    | nil => simp at hl
    | cons a t =>
      simp only [List.cons_append, List.tail_cons] at hl
      rcases List.mem_append.mp hl with hl | hl
      · exact h.tail_pending l hl
      · simp only [List.mem_singleton] at hl
        subst hl
        rfl
  · exact h.g_sorted
  · exact fun g hg => Nat.lt_succ_of_lt (h.g_lt g hg)
  · intro g hg l hl hpend
    rcases List.mem_append.mp hl with hl | hl
    · exact h.g_lt_pending g hg l hl hpend
    · simp only [List.mem_singleton] at hl
      subst hl
      exact h.g_lt g hg

/-- Removing a queue entry preserves the invariant. -/
theorem qinv_erase (h : QInv n q G) (p : MLock → Bool) :
    QInv n (q.eraseP p) G := by
  have hsub : List.Sublist (q.eraseP p) q := List.eraseP_sublist q
  constructor
  · exact h.sorted.sublist hsub
  · exact fun l hl => h.ids_lt l (hsub.subset hl)
  · intro l hl
    cases q with
    | nil => simp at hl
    | cons a t =>
      by_cases hp : p a
      · rw [List.eraseP_cons_of_pos hp] at hl
        exact h.tail_pending l (List.mem_of_mem_tail hl)
      · rw [List.eraseP_cons_of_neg (by simpa using hp)] at hl
        simp only [List.tail_cons] at hl
        exact h.tail_pending l ((List.eraseP_sublist t).subset hl)
  · exact h.g_sorted
  · exact h.g_lt
  · exact fun g hg l hl hpend => h.g_lt_pending g hg l (hsub.subset hl) hpend

/-- Resolving the queue head preserves the invariant, with the emitted
grant appended to the log. -/
theorem qinv_resolveHead (h : QInv n q G) :
    QInv n (resolveHead q).1 (G ++ (resolveHead q).2) := by
  cases q with
  | nil =>
    simpa [resolveHead] using h
  | cons l rest =>
    by_cases hg : l.granted
    · simpa [resolveHead, hg] using h
    · have hgf : l.granted = false := by simpa using hg
      have hl_mem : l ∈ l :: rest := List.mem_cons_self l rest
      have hGlt : ∀ g ∈ G, g < l.id :=
        fun g hgG => h.g_lt_pending g hgG l hl_mem hgf
      have hsorted := List.pairwise_cons.mp h.sorted
      simp only [resolveHead, hg, if_false, Bool.false_eq_true]
      constructor
      · exact List.pairwise_cons.mpr ⟨fun b hb => hsorted.1 b hb, hsorted.2⟩
      · intro x hx
        rcases List.mem_cons.mp hx with rfl | hx
        · exact h.ids_lt l hl_mem
        · exact h.ids_lt x (List.mem_cons_of_mem l hx)
      · intro x hx
        exact h.tail_pending x hx
      · refine List.pairwise_append.mpr ⟨h.g_sorted, by simp, ?_⟩
        intro g hgG b hb
        simp only [List.mem_singleton] at hb
        subst hb
        exact hGlt g hgG
      · intro g hgmem
        rcases List.mem_append.mp hgmem with hgG | hgnew
        · exact h.g_lt g hgG
        · simp only [List.mem_singleton] at hgnew
          subst hgnew
          exact h.ids_lt l hl_mem
      · intro g hgmem x hx hpend
        rcases List.mem_cons.mp hx with rfl | hx
        · simp at hpend
        · rcases List.mem_append.mp hgmem with hgG | hgnew
          · exact h.g_lt_pending g hgG x (List.mem_cons_of_mem l hx) hpend
          · simp only [List.mem_singleton] at hgnew
            subst hgnew
            exact hsorted.1 x hx

/-- The lockMax computed by the constructor is either exactly 1 or
nonpositive. -/
theorem lockMaxOf_cases (max : Option Int) :
    lockMaxOf max = 1 ∨ lockMaxOf max ≤ 0 := by
  cases max with
  | none => left; rfl
  | some mv =>
    by_cases h0 : mv = 0
    · left; simp [lockMaxOf, h0]
    · rcases le_or_lt mv 0 with hle | hpos
      · right
        simp only [lockMaxOf, h0, if_false]
        omega
      · left
        simp only [lockMaxOf, h0, if_false]
        omega

/-- tryLock preserves the invariant for every lockMax the constructor
can produce: the head-only branch by qinv_resolveHead, a nonpositive
lockMax because its loop runs zero iterations. -/
theorem qinv_tryLock (m : Int) (hm : m = 1 ∨ m ≤ 0)
    (h : QInv n q G) :
    QInv n (tryLock m q).1 (G ++ (tryLock m q).2) := by
  rcases hm with rfl | hm
  · simpa [tryLock] using qinv_resolveHead h
  · have hne : m ≠ 1 := by omega
    have h0 : m.toNat = 0 := Int.toNat_of_nonpos hm
    simpa [tryLock, hne, h0, resolveFirstN] using h

/-- One mutex step preserves the invariant. -/
theorem mutexStep_inv (m : Int) (hm : m = 1 ∨ m ≤ 0) (s : MutexState)
    (h : MutexInv s) (e : MEvent) : MutexInv (mutexStep m s e).1 := by
  cases e with
  | lock =>
    exact qinv_tryLock m hm (qinv_push h)
  | unlock id =>
    exact qinv_tryLock m hm (qinv_erase h _)

/-- The invariant holds in every reachable mutex state. -/
theorem mutexRun_inv (m : Int) (hm : m = 1 ∨ m ≤ 0)
    (evts : List MEvent) : MutexInv (mutexRun m evts) := by
  suffices hgen : ∀ s, MutexInv s →
      MutexInv (evts.foldl (fun s e => (mutexStep m s e).1) s) by
    exact hgen mutexInit mutexInv_init
  induction evts with
  | nil => exact fun s hs => hs
  | cons e evts ih =>
    intro s hs
    exact ih _ (mutexStep_inv m hm s hs e)

/-- With only the head ever grantable, at most one queued lock is
granted at any time. -/
theorem filter_granted_le_one (q : List MLock)
    (h : ∀ l ∈ q.tail, l.granted = false) :
    (q.filter (·.granted)).length ≤ 1 := by
  cases q with
  | nil => simp
  | cons a t =>
    have ht : t.filter (·.granted) = [] := by
      rw [List.filter_eq_nil_iff]
      intro l hl
      simp [h l hl]
    by_cases hg : a.granted <;> simp [List.filter_cons, hg, ht]

/-- A step emits a grant only from a state with no granted lock in the
queue, except when the step is the unlock of the granted holder
itself: a waiting lock is resolved only once the current holder has
invoked its unlock. -/
theorem mutexStep_grant_free (m : Int) (hm : m = 1 ∨ m ≤ 0)
    (s : MutexState) (h : MutexInv s) (e : MEvent)
    (hne : (mutexStep m s e).2 ≠ []) :
    (∀ l ∈ s.queue, l.granted = false) ∨
    (∃ l ∈ s.queue, l.granted = true ∧ e = .unlock l.id) := by
  rcases hm with rfl | hm
  · cases e with
    | lock =>
      cases hq : s.queue with
      | nil =>
        left
        intro l hl
        simp at hl
      | cons a t =>
        by_cases hg : a.granted
        · exfalso
          apply hne
          simp [mutexStep, tryLock, hq, resolveHead, hg]
        · left
          intro l hl
          rcases List.mem_cons.mp hl with rfl | hlt
          · simpa using hg
          · exact h.tail_pending l (by rw [hq]; exact hlt)
    | unlock id =>
      cases hq : s.queue with
      | nil =>
        exfalso
        apply hne
        simp [mutexStep, tryLock, hq, resolveHead]
      | cons a t =>
        by_cases hg : a.granted
        · by_cases hid : a.id = id
          · right
            exact ⟨a, List.mem_cons_self a t, hg, by rw [hid]⟩
          · exfalso
            apply hne
            simp [mutexStep, tryLock, hq, List.eraseP_cons, hid, resolveHead,
              hg]
        · left
          intro l hl
          rcases List.mem_cons.mp hl with rfl | hlt
          · simpa using hg
          · exact h.tail_pending l (by rw [hq]; exact hlt)
  · exfalso
    apply hne
    have hne1 : m ≠ 1 := by omega
    have h0 : m.toNat = 0 := Int.toNat_of_nonpos hm
    cases e <;> simp [mutexStep, tryLock, hne1, h0, resolveFirstN]

/-- C9: whatever max option the AsyncMutex constructor received, in
every reachable state at most one queued lock is granted; the grant
log is strictly increasing in arrival identity, so waiters are granted
in the FIFO order of their lock() calls; a step emits a grant only
when no granted holder remains in the queue or when the step is the
holder's own unlock running, so a waiting lock is resolved only after
the current holder invokes its unlock; and lockGuard invokes unlock on
both exit paths - the post-state after a thrown completion of the
wrapped function is identical to the one after a normal completion,
while the outcome is propagated either way. -/
theorem claim_C9_async_mutex (max : Option Int) (evts : List MEvent) :
    ((mutexRun (lockMaxOf max) evts).queue.filter (·.granted)).length ≤ 1 ∧
    (mutexRun (lockMaxOf max) evts).grants.Pairwise (· < ·) ∧
    (∀ e : MEvent,
      (mutexStep (lockMaxOf max) (mutexRun (lockMaxOf max) evts) e).2 ≠ [] →
      (∀ l ∈ (mutexRun (lockMaxOf max) evts).queue, l.granted = false) ∨
      (∃ l ∈ (mutexRun (lockMaxOf max) evts).queue,
        l.granted = true ∧ e = .unlock l.id)) ∧
    (∀ (E A : Type) (err : E) (a : A) (s0 : MutexState),
      (lockGuardRun (lockMaxOf max) s0 (Except.error err : Except E A)).2
        = (lockGuardRun (lockMaxOf max) s0 (Except.ok a : Except E A)).2 ∧
      (lockGuardRun (lockMaxOf max) s0 (Except.error err : Except E A)).1
        = .error err ∧
      (lockGuardRun (lockMaxOf max) s0
        (Except.ok a : Except E A)).1 = .ok a) := by
  have hm := lockMaxOf_cases max
  have hinv := mutexRun_inv (lockMaxOf max) hm evts
  refine ⟨?_, hinv.g_sorted, ?_, ?_⟩
  · exact filter_granted_le_one _ hinv.tail_pending
  · exact fun e hne => mutexStep_grant_free (lockMaxOf max) hm _ hinv e hne
  · intro E A err a s0
    exact ⟨rfl, rfl, rfl⟩

/-- C9 witness: with max = 5 (clamped to 1), after two lock calls the
first is granted and the second waits; the unlock of the holder is
exactly the step that grants the waiter, and the theorem's safety
conclusions evaluate on this concrete run. -/
theorem claim_C9_async_mutex_witness :
    ((mutexRun (lockMaxOf (some 5)) [MEvent.lock, MEvent.lock]).queue.filter
        (·.granted)).length ≤ 1 ∧
    ((∀ l ∈ (mutexRun (lockMaxOf (some 5))
          [MEvent.lock, MEvent.lock]).queue, l.granted = false) ∨
      (∃ l ∈ (mutexRun (lockMaxOf (some 5))
          [MEvent.lock, MEvent.lock]).queue,
        l.granted = true ∧ MEvent.unlock 0 = .unlock l.id)) := by
  have h := claim_C9_async_mutex (some 5) [MEvent.lock, MEvent.lock]
  exact ⟨h.1, h.2.2.1 (.unlock 0) (by decide)⟩
